import Mathlib

/-!
Verification development for the simple-sqsd worker daemon.

The Go sources are shallowly embedded: pure fragments become Lean
functions; the effectful pieces (HTTP responses, SQS calls, the worker
loop) become explicit data passed to, or produced by, those functions.
External library primitives that the repository merely calls (the
HMAC-SHA256 keyed hash, RFC-1123 date parsing relative to the current
clock) are supplied as function parameters, so every theorem quantifies
over their behaviour.  Go machine integers are modelled as Int with the
int64 range made explicit where the code can overflow.
-/



namespace SimpleSqsd

/-- Result of `Supervisor.httpRequest` in supervisor/supervisor.go: the
function returns `DeleteMessage(true)`, a `ChangeVisibility` value, or an
`error`.  The worker switch treats these as ack / defer / fail. -/
inductive Outcome where
  | deleteMessage : Outcome
  | changeVisibility : Int → Outcome
  | failure : String → Outcome
deriving DecidableEq

/-- Decimal digit value, as used by strconv.ParseInt in base 10. -/
def digitVal (c : Char) : Option Nat :=
  if ('0' ≤ c ∧ c ≤ '9') then some (c.toNat - 48) else none

/-- Digit-string accumulation of strconv.ParseUint (base 10): every
character must be a decimal digit and the string must be nonempty. -/
def parseNatDigits (cs : List Char) : Option Nat :=
  match cs with
  | [] => none
  | _ =>
    cs.foldl
      (fun acc c =>
        match acc, digitVal c with
        | some n, some d => some (n * 10 + d)
        | _, _ => none)
      (some 0)

/-- strconv.ParseInt(s, 10, 0) from the Go standard library, as called by
getAwaitTimeFromHeader: optional sign, decimal digits, int64 range
(bitSize 0 means the platform int, 64 bits here).  `none` models a
non-nil error. -/
def goParseInt64 (s : String) : Option Int :=
  let cs := s.toList
  let signed : Bool × List Char :=
    match cs with
    | '+' :: rest => (false, rest)
    | '-' :: rest => (true, rest)
    | rest => (false, rest)
  match parseNatDigits signed.2 with
  | none => none
  | some n =>
    let v : Int := if signed.1 then -(n : Int) else (n : Int)
    if -(2 ^ 63) ≤ v ∧ v ≤ 2 ^ 63 - 1 then some v else none

/-- An HTTP response as seen by the classification code: the status code
and the raw `Retry-After` header (`none` when the header is absent).
`res.Header.Get` returns the empty string for an absent header. -/
structure HttpResponse where
  status : Int
  retryAfter : Option String
deriving DecidableEq

/-- res.Header.Get("Retry-After"): the empty string when absent. -/
def retryAfterGet (res : HttpResponse) : String :=
  res.retryAfter.getD ""

/-- getAwaitTimeFromHeader in supervisor/supervisor.go.  The `rfc1123`
parameter models the external composition
int64(time.Until(time.Parse(time.RFC1123, s)).Seconds()): for a header
string it yields the whole-second delta between the parsed date and the
current clock (truncated toward zero), or `none` when time.Parse fails.
The code rejects an empty header, then tries strconv.ParseInt, then the
date; no branch clamps the result at zero. -/
def getAwaitTimeFromHeader (rfc1123 : String → Option Int) (res : HttpResponse) :
    Except String Int :=
  let retryAfter := retryAfterGet res
  if retryAfter = "" then
    .error ("Unexpected value provided on Retry-After header")
  else
    match goParseInt64 retryAfter with
    | some seconds => .ok seconds
    | none =>
      match rfc1123 retryAfter with
      | some secs => .ok secs
      | none => .error ("Unexpected value provided on Retry-After header (parse)")

/-- The response-classification tail of `Supervisor.httpRequest`
(supervisor/supervisor.go): outside the band 200..226 (http.StatusOK to
http.StatusIMUsed) the code fails, except for 429 where a parsed
Retry-After becomes a `ChangeVisibility`; inside the band it returns
`DeleteMessage(true)`. -/
def httpRequestOutcome (rfc1123 : String → Option Int) (res : HttpResponse) : Outcome :=
  if res.status < 200 ∨ res.status > 226 then
    if res.status = 429 then
      match getAwaitTimeFromHeader rfc1123 res with
      | .error e => .failure e
      | .ok waitTime => .changeVisibility waitTime
    else
      .failure ("Non-Success status code received")
  else
    .deleteMessage

/-- An SQS message as consumed by the worker loop: MessageId,
ReceiptHandle, Body and the string message attributes. -/
structure Message where
  messageId : String
  receiptHandle : String
  body : String
  attributes : List (String × String)
deriving DecidableEq

/-- sqs.DeleteMessageBatchRequestEntry with the fields the worker sets. -/
structure DeleteEntry where
  id : String
  receiptHandle : String
deriving DecidableEq

/-- sqs.ChangeMessageVisibilityBatchRequestEntry with the fields the
worker sets. -/
structure ChangeVisEntry where
  id : String
  receiptHandle : String
  visibilityTimeout : Int
deriving DecidableEq

/-- One turn of the per-message switch in `Supervisor.worker`
(supervisor/supervisor.go): a `DeleteMessage` outcome appends a delete
entry, a `ChangeVisibility` outcome appends a visibility entry carrying
the value, and an error only logs. -/
def processStep (dispatch : Message → Outcome)
    (acc : List DeleteEntry × List ChangeVisEntry) (msg : Message) :
    List DeleteEntry × List ChangeVisEntry :=
  match dispatch msg with
  | .deleteMessage => (acc.1 ++ [⟨msg.messageId, msg.receiptHandle⟩], acc.2)
  | .changeVisibility val =>
      (acc.1, acc.2 ++ [⟨msg.messageId, msg.receiptHandle, val⟩])
  | .failure _ => acc

/-- The batch-partitioning loop of `Supervisor.worker`: fold the switch
over the received messages starting from two empty entry lists. -/
def processMessages (dispatch : Message → Outcome) (msgs : List Message) :
    List DeleteEntry × List ChangeVisEntry :=
  msgs.foldl (processStep dispatch) ([], [])

/-- A `DeleteMessage` outcome contributes one delete entry. -/
def contribDelete : Outcome → Nat
  | .deleteMessage => 1
  | _ => 0

/-- A `ChangeVisibility` outcome contributes one visibility entry. -/
def contribVis : Outcome → Nat
  | .changeVisibility _ => 1
  | _ => 0

/-- An error outcome contributes to neither batch. -/
def contribFail : Outcome → Nat
  | .failure _ => 1
  | _ => 0

/-- Messages of the batch whose dispatch outcome is the error case. -/
def failCount (dispatch : Message → Outcome) (msgs : List Message) : Nat :=
  (msgs.map (fun m => contribFail (dispatch m))).sum

/-- Actions a worker-loop iteration performs against SQS and the
downstream service, in order. -/
inductive WorkerAction where
  | receive : WorkerAction
  | dispatchMsg : Message → WorkerAction
  | deleteBatch : List DeleteEntry → WorkerAction
  | changeVisibilityBatch : List ChangeVisEntry → WorkerAction
deriving DecidableEq

/-- One iteration of the `for` loop in `Supervisor.worker`
(supervisor/supervisor.go): observe the shutdown flag at the top (exit
with no further action when set); otherwise receive; on a receive error
or an empty batch continue with no dispatch; otherwise dispatch each
message in order and submit the two entry batches when nonempty.  The
Bool records whether the loop continues. -/
def workerIteration (shutdownFlag : Bool) (dispatch : Message → Outcome)
    (recv : Except String (List Message)) : Bool × List WorkerAction :=
  if shutdownFlag then (false, [])
  else
    match recv with
    | .error _ => (true, [WorkerAction.receive])
    | .ok msgs =>
      if msgs.length = 0 then (true, [WorkerAction.receive])
      else
        let entries := processMessages dispatch msgs
        (true,
          [WorkerAction.receive] ++ msgs.map WorkerAction.dispatchMsg
            ++ (if entries.1.length > 0 then [WorkerAction.deleteBatch entries.1] else [])
            ++ (if entries.2.length > 0 then [WorkerAction.changeVisibilityBatch entries.2] else []))

/-- A concrete message for instantiating batch theorems. -/
def sampleMsg : Message :=
  { messageId := "m1"
    receiptHandle := "r1"
    body := "message 1"
    attributes := [] }

/-- UTF-8 encoding of one character, the byte expansion Go applies in
[]byte(s) for a string s. -/
def charUTF8 (c : Char) : List Nat :=
  let n := c.toNat
  if n < 128 then [n]
  else if n < 2048 then [192 + n / 64, 128 + n % 64]
  else if n < 65536 then [224 + n / 4096, 128 + (n / 64) % 64, 128 + n % 64]
  else [240 + n / 262144, 128 + (n / 4096) % 64, 128 + (n / 64) % 64, 128 + n % 64]

/-- The byte sequence of a Go string: UTF-8 bytes of its characters. -/
def strBytes (s : String) : List Nat := s.toList.flatMap charUTF8

/-- encoding/hex: the digit table, the characters of the package's
hextable string constant. -/
def hexTable : List Char := ("0123456789abcdef").toList

/-- One hex digit (the table is only ever indexed below 16). -/
def hexDigitChar (n : Nat) : Char := hexTable.getD n '0'

/-- hex.EncodeToString: two lower-case hex digits per byte, high nibble
first. -/
def hexEncode (bytes : List Nat) : String :=
  String.mk (bytes.foldr
    (fun b acc => hexDigitChar (b % 256 / 16) :: hexDigitChar (b % 16) :: acc) [])

/-- Character drawn from the lower-case hex table. -/
def isLowerHexChar (c : Char) : Bool := decide (c ∈ hexTable)

/-- Every character of the string is a lower-case hex digit. -/
def isLowerHexString (s : String) : Bool := s.toList.all isLowerHexChar

/-- http.Header.Add: appends a value for the key (Get reads the first
occurrence, so existing values win). -/
def headerAdd (hs : List (String × String)) (k v : String) : List (String × String) :=
  hs ++ [(k, v)]

/-- http.Header.Set: replaces all values for the key. -/
def headerSet (hs : List (String × String)) (k v : String) : List (String × String) :=
  hs.filter (fun p => decide (¬p.1 = k)) ++ [(k, v)]

/-- http.Header.Get: the first value recorded for the key. -/
def headerLookup (hs : List (String × String)) (k : String) : Option String :=
  match hs with
  | [] => none
  | (k', v) :: rest => if k' = k then some v else headerLookup rest k

/-- WorkerConfig (supervisor/supervisor.go), restricted to the fields
the request builder reads.  The secret key is a byte list, from
[]byte(os.Getenv(...)). -/
structure WorkerConfig where
  httpURL : String
  httpContentType : String
  httpHMACHeader : String
  hmacSecretKey : List Nat
deriving DecidableEq

/-- The hmacSignature field precomputed by NewSupervisor:
fmt.Sprintf("POST %s\n", config.HTTPURL). -/
def hmacSignature (config : WorkerConfig) : String :=
  "POST " ++ config.httpURL ++ "\n"

/-- makeHMAC (supervisor/supervisor.go): the keyed hash over the
signature bytes, hex-encoded.  `hmacSha256` stands for the external
crypto/hmac + crypto/sha256 primitive (key, message ↦ MAC bytes); the
repository only chooses its inputs and hex-encodes its output. -/
def makeHMAC (hmacSha256 : List Nat → List Nat → List Nat) (signature : String)
    (secretKey : List Nat) : String :=
  hexEncode (hmacSha256 secretKey (strBytes signature))

/-- The header-construction prefix of `Supervisor.httpRequest`
(supervisor/supervisor.go): when the secret key is nonempty, set the
configured HMAC header to makeHMAC over strings.Join([hmacSignature,
body], ""); when a content type is configured, set Content-Type.  No
other header is set by this revision. -/
def buildRequestHeaders (cfg : WorkerConfig) (hmacSha256 : List Nat → List Nat → List Nat)
    (body : String) : List (String × String) :=
  let hs : List (String × String) := []
  let hs :=
    if 0 < cfg.hmacSecretKey.length then
      headerSet hs cfg.httpHMACHeader (makeHMAC hmacSha256 (hmacSignature cfg ++ body) cfg.hmacSecretKey)
    else hs
  let hs :=
    if 0 < cfg.httpContentType.length then
      headerSet hs ("Content-Type") cfg.httpContentType
    else hs
  hs

/-- Config used to instantiate the C3 theorem at a concrete point. -/
def hmacWitnessConfig : WorkerConfig :=
  { httpURL := "http://h/post"
    httpContentType := "application/json"
    httpHMACHeader := "X-Sig"
    hmacSecretKey := [102, 111, 111, 98, 97, 114] }

/-- A concrete stand-in for the external keyed hash. -/
def hmacWitnessMac : List Nat → List Nat → List Nat := fun _ _ => [171, 5]

/-- The same config with the secret key unset. -/
def hmacWitnessConfigNoKey : WorkerConfig :=
  { httpURL := "http://h/post"
    httpContentType := "application/json"
    httpHMACHeader := "X-Sig"
    hmacSecretKey := [] }

/-- Supervisor lifecycle state: the sync.Once guard of Start and the
number of launched workers (the wait-group count). -/
structure SupervisorState where
  startOnceDone : Bool
  workers : Nat
deriving DecidableEq

/-- NewSupervisor: zero-value once guard, no workers. -/
def newSupervisorState : SupervisorState :=
  { startOnceDone := false, workers := 0 }

/-- Supervisor.Start (supervisor/supervisor.go): s.startOnce.Do runs its
body — wg.Add(numWorkers) and the launch loop — only on the first call. -/
def supervisorStart (s : SupervisorState) (numWorkers : Nat) : SupervisorState :=
  if s.startOnceDone then s
  else { startOnceDone := true, workers := s.workers + numWorkers }

/-- Director lifecycle state (sqsworker/sqsworker.go). -/
structure DirectorState where
  started : Bool
  workers : Nat
deriving DecidableEq

/-- NewDirector: not started, no workers. -/
def newDirectorState : DirectorState :=
  { started := false, workers := 0 }

/-- Director.Start (sqsworker/sqsworker.go): under the mutex, an already
started director returns an error and launches nothing; otherwise n ≤ 0
defaults to runtime.NumCPU() and that many workers launch. -/
def directorStart (numCPU : Nat) (d : DirectorState) (n : Int) : DirectorState × Option String :=
  if d.started then (d, some ("already started"))
  else ({ started := true, workers := d.workers + (if n ≤ 0 then numCPU else n.toNat) }, none)

/-- Result (sqshttp revision, part_008): status, success flag and
Retry-After seconds as the Director consumes them. -/
structure SqsHttpResult where
  statusCode : Int
  successful : Bool
  retryAfterSec : Int
deriving DecidableEq

/-- The success test of Client.Request in the sqshttp revision, exactly
as written: res.StatusCode >= http.StatusOK || res.StatusCode <=
http.StatusIMUsed — a disjunction, not a conjunction. -/
def sqshttpSuccessful (status : Int) : Bool :=
  decide (200 ≤ status) || decide (status ≤ 226)

/-- getRetryAfterFromResponse in the sqshttp revision: empty header or
failed integer parse give 0 instead of an error. -/
def sqshttpGetRetryAfter (res : HttpResponse) : Int :=
  let retryAfter := retryAfterGet res
  if retryAfter.length = 0 then 0
  else
    match goParseInt64 retryAfter with
    | none => 0
    | some seconds => seconds

/-- The Result value Client.Request builds from a received response. -/
def sqshttpRequestResult (res : HttpResponse) : SqsHttpResult :=
  { statusCode := res.status
    successful := sqshttpSuccessful res.status
    retryAfterSec := sqshttpGetRetryAfter res }

/-- Per-message body of Director.worker (sqsworker/sqsworker.go): request
errors skip; unsuccessful results may add a visibility entry and skip;
successful results add a delete entry. -/
def directorStep (request : Message → Except String SqsHttpResult)
    (acc : List DeleteEntry × List ChangeVisEntry) (msg : Message) :
    List DeleteEntry × List ChangeVisEntry :=
  match request msg with
  | .error _ => acc
  | .ok res =>
    if !res.successful then
      (acc.1,
        if 0 < res.retryAfterSec then
          acc.2 ++ [⟨msg.messageId, msg.receiptHandle, res.retryAfterSec⟩]
        else acc.2)
    else
      (acc.1 ++ [⟨msg.messageId, msg.receiptHandle⟩], acc.2)

/-- The Director's batch partition over one received batch. -/
def directorProcess (request : Message → Except String SqsHttpResult)
    (msgs : List Message) : List DeleteEntry × List ChangeVisEntry :=
  msgs.foldl (directorStep request) ([], [])

/-- Outcome of the part_007 httpRequest construction stage: a run-time
panic, the early error return, or a built request. -/
inductive Part007Build where
  | panicked : Part007Build
  | errorReturn : String → Part007Build
  | built : List (String × String) → Part007Build
deriving DecidableEq

/-- WorkerConfig of the part_007 supervisor revision, restricted to the
fields the request builder reads. -/
structure Part007Config where
  httpURL : String
  httpContentType : String
  httpAuthHeader : String
  httpAuthHeaderName : String
  httpHMACHeader : String
  hmacSecretKey : List Nat
deriving DecidableEq

/-- The auth header name resolution in part_007: empty name defaults to
Authorization. -/
def part007AuthHeaderName (cfg : Part007Config) : String :=
  if cfg.httpAuthHeaderName.length = 0 then "Authorization" else cfg.httpAuthHeaderName

/-- addMessageAttributesToHeader (part_007): one
`X-Aws-Sqsd-Attr-<k>: v` Add per message attribute. -/
def addMessageAttributesToHeader (attrs : List (String × String))
    (hs : List (String × String)) : List (String × String) :=
  attrs.foldl (fun h kv => headerAdd h ("X-Aws-Sqsd-Attr-" ++ kv.1) kv.2) hs

/-- The tail of the part_007 builder after the error check: HMAC header
(over "POST <url>\n" ++ body), optional auth header, optional
Content-Type. -/
def part007FinishHeaders (cfg : Part007Config) (hmacSha256 : List Nat → List Nat → List Nat)
    (hs : List (String × String)) (body : String) : List (String × String) :=
  let hs :=
    if 0 < cfg.hmacSecretKey.length then
      headerSet hs cfg.httpHMACHeader
        (makeHMAC hmacSha256 (("POST " ++ cfg.httpURL ++ "\n") ++ body) cfg.hmacSecretKey)
    else hs
  let hs :=
    if 0 < cfg.httpAuthHeader.length then
      headerSet hs (part007AuthHeaderName cfg) cfg.httpAuthHeader
    else hs
  if 0 < cfg.httpContentType.length then
    headerSet hs ("Content-Type") cfg.httpContentType
  else hs

/-- httpRequest of the part_007 revision, statement by statement.
http.NewRequest returns a nil request exactly when its error is non-nil,
so the pair (newReq, err) models its result.  The two Header.Add calls
run BEFORE the error check; a Header access on a nil request is a nil
dereference, modelled by Option.map, and the resulting panic
short-circuits the rest of the function. -/
def part007httpRequest (cfg : Part007Config) (hmacSha256 : List Nat → List Nat → List Nat)
    (newReq : Option (List (String × String))) (err : Option String) (msg : Message) :
    Part007Build :=
  let req1 := newReq.map (fun hs => headerAdd hs ("X-Aws-Sqsd-Msgid") msg.messageId)
  let req2 := req1.map (fun hs => addMessageAttributesToHeader msg.attributes hs)
  match req2 with
  | none => Part007Build.panicked
  | some hs =>
    match err with
    | some e => Part007Build.errorReturn e
    | none => Part007Build.built (part007FinishHeaders cfg hmacSha256 hs msg.body)

/-- The headers of a successfully built part_007 request, starting from
the initial header state hs0 of the fresh request. -/
def part007builtRequestHeaders (cfg : Part007Config)
    (hmacSha256 : List Nat → List Nat → List Nat) (hs0 : List (String × String))
    (msg : Message) : List (String × String) :=
  part007FinishHeaders cfg hmacSha256
    (addMessageAttributesToHeader msg.attributes
      (headerAdd hs0 ("X-Aws-Sqsd-Msgid") msg.messageId))
    msg.body

/-- Supervisor config used for the C6 counterexample. -/
def c6SupervisorConfig : WorkerConfig :=
  { httpURL := "http://h/post"
    httpContentType := "application/json"
    httpHMACHeader := "X-Sig"
    hmacSecretKey := [102, 111, 111] }

/-- A concrete stand-in for the external keyed hash, C6 instances. -/
def c6Mac : List Nat → List Nat → List Nat := fun _ _ => [0]

/-- part_007 config used to instantiate the C6 amended theorem. -/
def c6Part007Config : Part007Config :=
  { httpURL := "http://h/post"
    httpContentType := "application/json"
    httpAuthHeader := "tok"
    httpAuthHeaderName := ""
    httpHMACHeader := "X-Sig"
    hmacSecretKey := [1, 2] }

/-- Message used to instantiate the C6 amended theorem. -/
def c6Msg : Message :=
  { messageId := "m1"
    receiptHandle := "r1"
    body := "message 1"
    attributes := [("Foo", "Bar")] }

/-- The 429 branch of the classification: the outcome is determined by
the Retry-After parse. -/
theorem httpRequestOutcome_429 (rfc1123 : String → Option Int) (ra : Option String) :
    httpRequestOutcome rfc1123 ⟨429, ra⟩ =
      match getAwaitTimeFromHeader rfc1123 ⟨429, ra⟩ with
      | .error e => .failure e
      | .ok waitTime => .changeVisibility waitTime := by
  unfold httpRequestOutcome
  norm_num

/-- A nonempty Retry-After that strconv.ParseInt accepts yields that
integer, whatever its sign. -/
theorem getAwaitTimeFromHeader_int (rfc1123 : String → Option Int) (ra : String)
    (S : Int) (hne : ¬ra = "") (h : goParseInt64 ra = some S) :
    getAwaitTimeFromHeader rfc1123 ⟨429, some ra⟩ = .ok S := by
  simp [getAwaitTimeFromHeader, retryAfterGet, hne, h]

/-- A nonempty Retry-After that ParseInt rejects but the RFC-1123 date
path accepts yields the date delta, unclamped. -/
theorem getAwaitTimeFromHeader_date (rfc1123 : String → Option Int) (ra : String)
    (d : Int) (hne : ¬ra = "") (hint : goParseInt64 ra = none)
    (hdate : rfc1123 ra = some d) :
    getAwaitTimeFromHeader rfc1123 ⟨429, some ra⟩ = .ok d := by
  simp [getAwaitTimeFromHeader, retryAfterGet, hne, hint, hdate]

/-- The empty string never parses as an integer. -/
theorem goParseInt64_empty : goParseInt64 "" = none := by decide

/-- C2 counterexample: the dispatcher deferral delay CAN be negative.  A
429 response with `Retry-After: -5` is accepted by strconv.ParseInt and
produces a visibility change of -5 seconds, refuting the claim that the
returned delay is never negative (and that only non-negative integers
are accepted). -/
theorem retry_after_negative_delay_counterexample :
    httpRequestOutcome (fun _ => none) { status := 429, retryAfter := some ("-5") }
        = Outcome.changeVisibility (-5)
      ∧ (-5 : Int) < 0 := by
  constructor
  · rfl
  · decide

/-- C2 amended: on a 429 response, a Retry-After that parses as an
integer S — of either sign, not only non-negative — defers by exactly S;
when integer parsing fails but the RFC-1123 date path yields a delta d,
the dispatcher defers by exactly d with no max(0, ·) clamp (d is the
truncated signed difference date − now, so it may be negative for past
dates); a `ChangeVisibility S` outcome becomes a visibility-change entry
with VisibilityTimeout = S. -/
theorem retry_after_defer_unclamped :
    ∀ (rfc1123 : String → Option Int) (ra : String) (S : Int),
      (goParseInt64 ra = some S →
        httpRequestOutcome rfc1123 { status := 429, retryAfter := some ra }
          = Outcome.changeVisibility S)
      ∧ (¬ra = "" → goParseInt64 ra = none → ∀ d : Int, rfc1123 ra = some d →
        httpRequestOutcome rfc1123 { status := 429, retryAfter := some ra }
          = Outcome.changeVisibility d)
      ∧ (∀ m : Message, processMessages (fun _ => Outcome.changeVisibility S) [m]
          = ([], [⟨m.messageId, m.receiptHandle, S⟩])) := by
  intro rfc1123 ra S
  refine ⟨?_, ?_, ?_⟩
  · intro h
    have hne : ¬ra = "" := by
      intro he
      rw [he, goParseInt64_empty] at h
      exact Option.noConfusion h
    rw [httpRequestOutcome_429, getAwaitTimeFromHeader_int rfc1123 ra S hne h]
  · intro hne hint d hdate
    rw [httpRequestOutcome_429, getAwaitTimeFromHeader_date rfc1123 ra d hne hint hdate]
  · intro m
    rfl

/-- C2 amended, at concrete inputs: `Retry-After: -5` parses as the
integer -5 and the dispatcher defers by exactly -5; with an unparseable
`Retry-After: xyz` and a date path yielding 7, the dispatcher defers by
exactly 7. -/
theorem retry_after_defer_unclamped_witness :
    (goParseInt64 ("-5") = some (-5)
      ∧ httpRequestOutcome (fun _ => none) { status := 429, retryAfter := some ("-5") }
          = Outcome.changeVisibility (-5))
      ∧ (¬("xyz" : String) = "" ∧ goParseInt64 ("xyz") = none
        ∧ httpRequestOutcome (fun _ => some 7) { status := 429, retryAfter := some ("xyz") }
            = Outcome.changeVisibility 7) :=
  ⟨⟨by decide, (retry_after_defer_unclamped (fun _ => none) ("-5") (-5)).1 (by decide)⟩,
    ⟨by decide, by decide,
      (retry_after_defer_unclamped (fun _ => some 7) ("xyz") 0).2.1
        (by decide) (by decide) 7 rfl⟩⟩

/-- Entry-count bookkeeping of the partition fold, relative to any
starting accumulator. -/
theorem processMessages_foldl_length (dispatch : Message → Outcome) :
    ∀ (msgs : List Message) (acc : List DeleteEntry × List ChangeVisEntry),
      (msgs.foldl (processStep dispatch) acc).1.length
          + (msgs.foldl (processStep dispatch) acc).2.length
          + failCount dispatch msgs
        = acc.1.length + acc.2.length + msgs.length := by
  intro msgs
  induction msgs with
  | nil => intro acc; simp [failCount]
  | cons m ms ih =>
    intro acc
    have hfail : failCount dispatch (m :: ms)
        = contribFail (dispatch m) + failCount dispatch ms := by
      simp [failCount]
    cases hd : dispatch m with
    | deleteMessage =>
      have hps : processStep dispatch acc m
          = (acc.1 ++ [⟨m.messageId, m.receiptHandle⟩], acc.2) := by
        simp [processStep, hd]
      rw [List.foldl_cons, hfail, hps]
      have hstep := ih (acc.1 ++ [⟨m.messageId, m.receiptHandle⟩], acc.2)
      simp only [List.length_append, List.length_cons, List.length_nil] at hstep ⊢
      simp [contribFail, hd]
      omega
    | changeVisibility v =>
      have hps : processStep dispatch acc m
          = (acc.1, acc.2 ++ [⟨m.messageId, m.receiptHandle, v⟩]) := by
        simp [processStep, hd]
      rw [List.foldl_cons, hfail, hps]
      have hstep := ih (acc.1, acc.2 ++ [⟨m.messageId, m.receiptHandle, v⟩])
      simp only [List.length_append, List.length_cons, List.length_nil] at hstep ⊢
      simp [contribFail, hd]
      omega
    | failure e =>
      have hps : processStep dispatch acc m = acc := by
        simp [processStep, hd]
      rw [List.foldl_cons, hfail, hps]
      have hstep := ih acc
      simp only [List.length_cons] at hstep ⊢
      simp [contribFail, hd]
      omega

/-- C4: in every iteration each message contributes exactly one of a
delete entry, a visibility entry, or nothing, and the partition is
complete: |toDelete| + |toDefer| + |fail| equals the size of the
received batch. -/
theorem batch_partition_complete :
    ∀ (dispatch : Message → Outcome) (msgs : List Message),
      (processMessages dispatch msgs).1.length + (processMessages dispatch msgs).2.length
          + failCount dispatch msgs = msgs.length
      ∧ ∀ m ∈ msgs,
          contribDelete (dispatch m) + contribVis (dispatch m) + contribFail (dispatch m) = 1 := by
  intro dispatch msgs
  constructor
  · have h := processMessages_foldl_length dispatch msgs ([], [])
    simpa [processMessages] using h
  · intro m _
    cases dispatch m <;> rfl

/-- C4 at a concrete input: a singleton batch whose message is acked
partitions as 1 + 0 + 0, and its outcome contributes exactly once. -/
theorem batch_partition_complete_witness :
    ((processMessages (fun _ => Outcome.deleteMessage) [sampleMsg]).1.length
          + (processMessages (fun _ => Outcome.deleteMessage) [sampleMsg]).2.length
          + failCount (fun _ => Outcome.deleteMessage) [sampleMsg] = 1)
      ∧ (contribDelete Outcome.deleteMessage + contribVis Outcome.deleteMessage
          + contribFail Outcome.deleteMessage = 1) :=
  ⟨(batch_partition_complete (fun _ => Outcome.deleteMessage) [sampleMsg]).1,
    (batch_partition_complete (fun _ => Outcome.deleteMessage) [sampleMsg]).2
      sampleMsg (by decide)⟩

/-- C8: the worker loop exits only when the shutdown flag is observed at
the top of an iteration, and then performs no receive, dispatch, or
batch submission; a receive error or an empty batch leads to the next
iteration, with no dispatch and no submissions. -/
theorem worker_exits_only_on_shutdown :
    ∀ (dispatch : Message → Outcome) (recv : Except String (List Message)),
      workerIteration true dispatch recv = (false, [])
      ∧ (workerIteration false dispatch recv).1 = true
      ∧ (∀ e, workerIteration false dispatch (.error e) = (true, [WorkerAction.receive]))
      ∧ workerIteration false dispatch (.ok []) = (true, [WorkerAction.receive]) := by
  intro dispatch recv
  refine ⟨rfl, ?_, fun e => rfl, rfl⟩
  cases recv with
  | error e => rfl
  | ok msgs =>
    unfold workerIteration
    by_cases h : msgs.length = 0 <;> simp [h]

/-- A Retry-After header that is absent, empty, or unparseable makes
getAwaitTimeFromHeader return an error. -/
theorem getAwaitTimeFromHeader_bad (rfc1123 : String → Option Int) (ra : Option String)
    (h : ra = none ∨ ra = some "" ∨
      (goParseInt64 (ra.getD "") = none ∧ rfc1123 (ra.getD "") = none)) :
    ∃ e, getAwaitTimeFromHeader rfc1123 ⟨429, ra⟩ = .error e := by
  unfold getAwaitTimeFromHeader retryAfterGet
  rcases h with h | h | h
  · subst h
    simp
  · subst h
    simp
  · by_cases hs : ra.getD "" = ""
    · simp [hs]
    · simp only [hs, if_false, h.1, h.2]
      exact ⟨_, rfl⟩

/-- C5: a 429 whose Retry-After is absent, empty, or parses neither as
an integer nor as an RFC-1123 date is classified as a failure: it
contributes to neither the delete batch nor the visibility batch, and a
non-shutdown iteration still continues the loop. -/
theorem bad_retry_after_fails :
    ∀ (rfc1123 : String → Option Int) (ra : Option String),
      (ra = none ∨ ra = some "" ∨
        (goParseInt64 (ra.getD "") = none ∧ rfc1123 (ra.getD "") = none)) →
      (∃ e, httpRequestOutcome rfc1123 { status := 429, retryAfter := ra } = Outcome.failure e)
      ∧ contribDelete (httpRequestOutcome rfc1123 { status := 429, retryAfter := ra }) = 0
      ∧ contribVis (httpRequestOutcome rfc1123 { status := 429, retryAfter := ra }) = 0
      ∧ ∀ (dispatch : Message → Outcome) (recv : Except String (List Message)),
          (workerIteration false dispatch recv).1 = true := by
  intro rfc1123 ra h
  obtain ⟨e, he⟩ := getAwaitTimeFromHeader_bad rfc1123 ra h
  have hout : httpRequestOutcome rfc1123 { status := 429, retryAfter := ra }
      = Outcome.failure e := by
    rw [httpRequestOutcome_429, he]
  refine ⟨⟨e, hout⟩, ?_, ?_, ?_⟩
  · rw [hout]; rfl
  · rw [hout]; rfl
  · intro dispatch recv
    cases recv with
    | error e => rfl
    | ok msgs =>
      unfold workerIteration
      by_cases hlen : msgs.length = 0 <;> simp [hlen]

/-- C5 at a concrete input: `Retry-After: invalid` parses neither way and
the 429 is classified as a failure contributing to neither batch. -/
theorem bad_retry_after_fails_witness :
    (goParseInt64 ((some ("invalid")).getD "") = none
        ∧ (fun (_ : String) => (none : Option Int)) ((some ("invalid")).getD "") = none)
      ∧ ((∃ e, httpRequestOutcome (fun _ => none) { status := 429, retryAfter := some ("invalid") }
            = Outcome.failure e)
          ∧ contribDelete (httpRequestOutcome (fun _ => none)
              { status := 429, retryAfter := some ("invalid") }) = 0
          ∧ contribVis (httpRequestOutcome (fun _ => none)
              { status := 429, retryAfter := some ("invalid") }) = 0
          ∧ ∀ (dispatch : Message → Outcome) (recv : Except String (List Message)),
              (workerIteration false dispatch recv).1 = true) :=
  ⟨⟨by decide, rfl⟩,
    bad_retry_after_fails (fun _ => none) (some ("invalid"))
      (Or.inr (Or.inr ⟨by decide, rfl⟩))⟩

/-- String concatenation is associative (via the underlying lists). -/
theorem strAppend_assoc (a b c : String) : (a ++ b) ++ c = a ++ (b ++ c) := by
  apply congrArg String.mk
  show (a ++ b).data ++ c.data = a.data ++ (b ++ c).data
  simp [String.data_append, List.append_assoc]

/-- The hex table digit is always one of the sixteen lower-case hex
characters. -/
theorem hexDigitChar_mem (n : Nat) : hexDigitChar n ∈ hexTable := by
  unfold hexDigitChar
  rcases Nat.lt_or_ge n 16 with h | h
  · interval_cases n <;> decide
  · rw [List.getD_eq_default]
    · decide
    · have h16 : hexTable.length = 16 := by decide
      omega

/-- hex.EncodeToString output consists only of lower-case hex digits. -/
theorem hexEncode_lower (bytes : List Nat) : isLowerHexString (hexEncode bytes) = true := by
  unfold isLowerHexString hexEncode
  show (bytes.foldr _ []).all isLowerHexChar = true
  induction bytes with
  | nil => rfl
  | cons b bs ih =>
    simp only [List.foldr_cons, List.all_cons, ih, Bool.and_true]
    simp [isLowerHexChar, hexDigitChar_mem]

/-- C3: when the HMAC secret key is nonempty, the dispatched request
carries the configured HMAC header whose value is the lower-case hex
encoding of the MAC over exactly the bytes of
"POST " ++ httpURL ++ "\n" ++ body under the secret (for any body,
including the empty one); when the secret is empty, no HMAC header is
set (only Content-Type may appear). -/
theorem hmac_header_exact :
    ∀ (cfg : WorkerConfig) (hmacSha256 : List Nat → List Nat → List Nat) (body : String),
      (cfg.hmacSecretKey ≠ [] → cfg.httpHMACHeader ≠ ("Content-Type") →
        headerLookup (buildRequestHeaders cfg hmacSha256 body) cfg.httpHMACHeader
          = some (hexEncode (hmacSha256 cfg.hmacSecretKey
              (strBytes ("POST " ++ cfg.httpURL ++ "\n" ++ body))))
        ∧ isLowerHexString (hexEncode (hmacSha256 cfg.hmacSecretKey
            (strBytes ("POST " ++ cfg.httpURL ++ "\n" ++ body)))) = true)
      ∧ (cfg.hmacSecretKey = [] →
        ∀ p ∈ buildRequestHeaders cfg hmacSha256 body, p.1 = ("Content-Type")) := by
  intro cfg hmacSha256 body
  constructor
  · intro hsec hct
    have hpre : hmacSignature cfg ++ body = "POST " ++ cfg.httpURL ++ "\n" ++ body := by
      unfold hmacSignature
      rw [strAppend_assoc, strAppend_assoc]
    have hlen : 0 < cfg.hmacSecretKey.length := List.length_pos.mpr hsec
    refine ⟨?_, hexEncode_lower _⟩
    simp only [buildRequestHeaders]
    rw [if_pos hlen, hpre]
    unfold makeHMAC
    by_cases hc : 0 < cfg.httpContentType.length
    · rw [if_pos hc]
      unfold headerSet
      simp only [List.filter_nil, List.nil_append, List.filter_cons,
        decide_eq_true_eq, hct, not_false_iff, if_pos, List.filter_nil,
        List.cons_append, List.nil_append]
      unfold headerLookup
      simp
    · rw [if_neg hc]
      unfold headerSet
      simp only [List.filter_nil, List.nil_append]
      unfold headerLookup
      simp
  · intro hsec p hp
    have hlen : ¬0 < cfg.hmacSecretKey.length := by simp [hsec]
    simp only [buildRequestHeaders] at hp
    rw [if_neg hlen] at hp
    by_cases hc : 0 < cfg.httpContentType.length
    · rw [if_pos hc] at hp
      unfold headerSet at hp
      simp only [List.filter_nil, List.nil_append, List.mem_singleton] at hp
      rw [hp]
    · rw [if_neg hc] at hp
      exact absurd hp (by simp)

/-- C3 at a concrete input: secret "foobar" bytes, header X-Sig, body
"message 1". -/
theorem hmac_header_exact_witness :
    (hmacWitnessConfig.hmacSecretKey ≠ []
        ∧ hmacWitnessConfig.httpHMACHeader ≠ ("Content-Type"))
      ∧ (headerLookup (buildRequestHeaders hmacWitnessConfig hmacWitnessMac ("message 1"))
            hmacWitnessConfig.httpHMACHeader
          = some (hexEncode (hmacWitnessMac hmacWitnessConfig.hmacSecretKey
              (strBytes ("POST " ++ hmacWitnessConfig.httpURL ++ "\n" ++ "message 1"))))
        ∧ isLowerHexString (hexEncode (hmacWitnessMac hmacWitnessConfig.hmacSecretKey
            (strBytes ("POST " ++ hmacWitnessConfig.httpURL ++ "\n" ++ "message 1")))) = true)
      ∧ (hmacWitnessConfigNoKey.hmacSecretKey = []
        ∧ ∀ p ∈ buildRequestHeaders hmacWitnessConfigNoKey hmacWitnessMac ("message 1"),
            p.1 = ("Content-Type")) :=
  ⟨⟨by decide, by decide⟩,
    (hmac_header_exact hmacWitnessConfig hmacWitnessMac ("message 1")).1
      (by decide) (by decide),
    ⟨rfl, (hmac_header_exact hmacWitnessConfigNoKey hmacWitnessMac ("message 1")).2 rfl⟩⟩

/-- C7: starting twice launches exactly the first call's workers.  For
the Supervisor the second call is a no-op (the once guard moves false to
true exactly once); the Director additionally reports an error on the
second call. -/
theorem start_idempotent :
    ∀ (n m : Nat) (numCPU : Nat) (ni mi : Int),
      supervisorStart (supervisorStart newSupervisorState n) m
          = supervisorStart newSupervisorState n
      ∧ (supervisorStart newSupervisorState n).workers = n
      ∧ (supervisorStart newSupervisorState n).startOnceDone = true
      ∧ (newSupervisorState.startOnceDone = false)
      ∧ (directorStart numCPU (directorStart numCPU newDirectorState ni).1 mi).1
          = (directorStart numCPU newDirectorState ni).1
      ∧ (directorStart numCPU (directorStart numCPU newDirectorState ni).1 mi).2.isSome = true := by
  intro n m numCPU ni mi
  refine ⟨?_, ?_, ?_, rfl, ?_, ?_⟩ <;>
    simp [supervisorStart, newSupervisorState, directorStart, newDirectorState]

/-- The disjunctive success test accepts every integer status. -/
theorem sqshttpSuccessful_true (status : Int) : sqshttpSuccessful status = true := by
  unfold sqshttpSuccessful
  rcases le_or_lt 200 status with h | h
  · simp [h]
  · have h226 : status ≤ 226 := by omega
    simp [h226]

/-- Director fold when every message receives some response. -/
theorem directorProcess_foldl_all_responses (responses : Message → HttpResponse) :
    ∀ (msgs : List Message) (acc : List DeleteEntry × List ChangeVisEntry),
      msgs.foldl (directorStep (fun m => .ok (sqshttpRequestResult (responses m)))) acc
        = (acc.1 ++ msgs.map (fun m => ⟨m.messageId, m.receiptHandle⟩), acc.2) := by
  intro msgs
  induction msgs with
  | nil => intro acc; simp
  | cons m ms ih =>
    intro acc
    rw [List.foldl_cons]
    have hstep : directorStep (fun m => .ok (sqshttpRequestResult (responses m))) acc m
        = (acc.1 ++ [⟨m.messageId, m.receiptHandle⟩], acc.2) := by
      simp [directorStep, sqshttpRequestResult, sqshttpSuccessful_true]
    rw [hstep, ih]
    simp

/-- C9: in the sqshttp client revision, Result.Successful is true for
every status code whatsoever (the test is the disjunction
status ≥ 200 || status ≤ 226), so the Director schedules a delete for
every message whose request got any response — 4xx and 5xx included —
and defers none. -/
theorem sqshttp_success_always :
    (∀ status : Int, sqshttpSuccessful status = true)
    ∧ ∀ (responses : Message → HttpResponse) (msgs : List Message),
        directorProcess (fun m => .ok (sqshttpRequestResult (responses m))) msgs
          = (msgs.map (fun m => ⟨m.messageId, m.receiptHandle⟩), []) := by
  refine ⟨sqshttpSuccessful_true, ?_⟩
  intro responses msgs
  unfold directorProcess
  rw [directorProcess_foldl_all_responses]
  simp

/-- C10: in the part_007 revision, whenever http.NewRequest fails (nil
request with a non-nil error) the header writes that precede the error
check dereference the nil request and panic — the result is `panicked`,
a constructor distinct from the `errorReturn` branch that would classify
the message as a failure; that branch is reached only with a non-nil
request, as the second equation shows. -/
theorem part007_nil_deref_panics :
    ∀ (cfg : Part007Config) (hmacSha256 : List Nat → List Nat → List Nat)
      (e : String) (msg : Message) (hs : List (String × String)),
      part007httpRequest cfg hmacSha256 none (some e) msg = Part007Build.panicked
      ∧ part007httpRequest cfg hmacSha256 (some hs) (some e) msg
          = Part007Build.errorReturn e := by
  intro cfg hmacSha256 e msg hs
  exact ⟨rfl, rfl⟩

/-- Membership is preserved by Header.Add. -/
theorem mem_headerAdd_of_mem (hs : List (String × String)) (k v : String)
    (p : String × String) (hp : p ∈ hs) : p ∈ headerAdd hs k v :=
  List.mem_append_left _ hp

/-- Header.Add records its own pair. -/
theorem mem_headerAdd_self (hs : List (String × String)) (k v : String) :
    (k, v) ∈ headerAdd hs k v := by
  simp [headerAdd]

/-- Membership survives the attribute fold. -/
theorem mem_addAttrs_of_mem (attrs : List (String × String)) :
    ∀ (hs : List (String × String)) (p : String × String),
      p ∈ hs → p ∈ addMessageAttributesToHeader attrs hs := by
  induction attrs with
  | nil => intro hs p hp; exact hp
  | cons a rest ih =>
    intro hs p hp
    exact ih _ p (mem_headerAdd_of_mem hs _ _ p hp)

/-- Every attribute contributes its own X-Aws-Sqsd-Attr- header. -/
theorem mem_addAttrs_attr (attrs : List (String × String)) :
    ∀ (hs : List (String × String)) (kv : String × String), kv ∈ attrs →
      ("X-Aws-Sqsd-Attr-" ++ kv.1, kv.2) ∈ addMessageAttributesToHeader attrs hs := by
  induction attrs with
  | nil => intro hs kv hkv; exact absurd hkv (by simp)
  | cons a rest ih =>
    intro hs kv hkv
    rcases List.mem_cons.mp hkv with h | h
    · subst h
      exact mem_addAttrs_of_mem rest _ _ (mem_headerAdd_self hs _ _)
    · exact ih _ kv h

/-- Header.Set keeps every pair under a different name. -/
theorem mem_headerSet_of_ne (hs : List (String × String)) (k v : String)
    (p : String × String) (hp : p ∈ hs) (hne : ¬p.1 = k) : p ∈ headerSet hs k v := by
  unfold headerSet
  apply List.mem_append_left
  rw [List.mem_filter]
  exact ⟨hp, by simpa using hne⟩

/-- A conditional Header.Set keeps every pair under a different name. -/
theorem mem_ite_headerSet (c : Prop) [Decidable c] (hs : List (String × String))
    (k v : String) (p : String × String) (hp : p ∈ hs) (hne : ¬p.1 = k) :
    p ∈ (if c then headerSet hs k v else hs) := by
  by_cases h : c
  · rw [if_pos h]; exact mem_headerSet_of_ne hs k v p hp hne
  · rw [if_neg h]; exact hp

/-- The HMAC / auth / Content-Type tail of the part_007 builder keeps
every header whose name collides with none of the three names it may
set. -/
theorem mem_part007FinishHeaders_of_ne (cfg : Part007Config)
    (hmacSha256 : List Nat → List Nat → List Nat) (hs : List (String × String))
    (body : String) (p : String × String) (hp : p ∈ hs)
    (h1 : ¬p.1 = cfg.httpHMACHeader) (h2 : ¬p.1 = part007AuthHeaderName cfg)
    (h3 : ¬p.1 = "Content-Type") :
    p ∈ part007FinishHeaders cfg hmacSha256 hs body := by
  simp only [part007FinishHeaders]
  exact mem_ite_headerSet _ _ _ _ _
    (mem_ite_headerSet _ _ _ _ _
      (mem_ite_headerSet _ _ _ _ _ hp h1) h2) h3

/-- An attribute header name is never Content-Type (lengths differ). -/
theorem attrName_ne_contentType (k : String) :
    ¬("X-Aws-Sqsd-Attr-" ++ k) = "Content-Type" := by
  intro h
  have hl := congrArg String.length h
  rw [String.length_append] at hl
  have h16 : ("X-Aws-Sqsd-Attr-" : String).length = 16 := by decide
  have h12 : ("Content-Type" : String).length = 12 := by decide
  omega

/-- C6 counterexample: the dispatcher of supervisor/supervisor.go builds
its request from the message body alone — the request for any message
carries neither an X-Aws-Sqsd-Msgid header nor any X-Aws-Sqsd-Attr-
header, refuting the claim for this revision. -/
theorem msgid_header_missing_counterexample :
    headerLookup (buildRequestHeaders c6SupervisorConfig c6Mac ("message 1"))
        ("X-Aws-Sqsd-Msgid") = none
      ∧ headerLookup (buildRequestHeaders c6SupervisorConfig c6Mac ("message 1"))
        ("X-Aws-Sqsd-Attr-Foo") = none := by
  constructor <;> rfl

/-- C6 amended: in the part_007 revision (as in the sqshttp client), a
successfully built request carries X-Aws-Sqsd-Msgid with the message id
and one X-Aws-Sqsd-Attr-<k> header per attribute (k, v) with value v,
provided the configured HMAC / auth header names do not collide with
those names; the supervisor/supervisor.go revision sets neither header. -/
theorem part007_sqsd_headers :
    ∀ (cfg : Part007Config) (hmacSha256 : List Nat → List Nat → List Nat)
      (hs0 : List (String × String)) (msg : Message),
      part007httpRequest cfg hmacSha256 (some hs0) none msg
          = Part007Build.built (part007builtRequestHeaders cfg hmacSha256 hs0 msg)
      ∧ (¬cfg.httpHMACHeader = "X-Aws-Sqsd-Msgid" →
          ¬part007AuthHeaderName cfg = "X-Aws-Sqsd-Msgid" →
          ("X-Aws-Sqsd-Msgid", msg.messageId)
            ∈ part007builtRequestHeaders cfg hmacSha256 hs0 msg)
      ∧ (∀ kv ∈ msg.attributes,
          ¬cfg.httpHMACHeader = "X-Aws-Sqsd-Attr-" ++ kv.1 →
          ¬part007AuthHeaderName cfg = "X-Aws-Sqsd-Attr-" ++ kv.1 →
          ("X-Aws-Sqsd-Attr-" ++ kv.1, kv.2)
            ∈ part007builtRequestHeaders cfg hmacSha256 hs0 msg) := by
  intro cfg hmacSha256 hs0 msg
  refine ⟨rfl, ?_, ?_⟩
  · intro h1 h2
    apply mem_part007FinishHeaders_of_ne
    · exact mem_addAttrs_of_mem msg.attributes _ _ (mem_headerAdd_self hs0 _ _)
    · exact fun h => h1 h.symm
    · exact fun h => h2 h.symm
    · show ¬("X-Aws-Sqsd-Msgid" : String) = "Content-Type"
      decide
  · intro kv hkv h1 h2
    apply mem_part007FinishHeaders_of_ne
    · exact mem_addAttrs_attr msg.attributes _ kv hkv
    · exact fun h => h1 h.symm
    · exact fun h => h2 h.symm
    · exact attrName_ne_contentType kv.1

/-- C6 amended, at a concrete input: HMAC header X-Sig, default auth
name Authorization, one attribute (Foo, Bar). -/
theorem part007_sqsd_headers_witness :
    (¬c6Part007Config.httpHMACHeader = "X-Aws-Sqsd-Msgid")
      ∧ (¬part007AuthHeaderName c6Part007Config = "X-Aws-Sqsd-Msgid")
      ∧ (("Foo", "Bar") ∈ c6Msg.attributes)
      ∧ ("X-Aws-Sqsd-Msgid", c6Msg.messageId)
          ∈ part007builtRequestHeaders c6Part007Config c6Mac [] c6Msg
      ∧ ("X-Aws-Sqsd-Attr-" ++ "Foo", "Bar")
          ∈ part007builtRequestHeaders c6Part007Config c6Mac [] c6Msg :=
  ⟨by decide, by decide, by decide,
    (part007_sqsd_headers c6Part007Config c6Mac [] c6Msg).2.1 (by decide) (by decide),
    (part007_sqsd_headers c6Part007Config c6Mac [] c6Msg).2.2 ("Foo", "Bar")
      (by decide) (by decide) (by decide)⟩

/-- C1: for every received response, classification yields the success
outcome `DeleteMessage` (an ack, i.e. a delete-batch entry) exactly when
the status code lies in the inclusive band 200..226; in particular 199
and 227 are not classified as success. -/
theorem ack_iff_status_in_2xx_band :
    ∀ (rfc1123 : String → Option Int) (res : HttpResponse),
      (httpRequestOutcome rfc1123 res = Outcome.deleteMessage ↔
        200 ≤ res.status ∧ res.status ≤ 226) := by
  intro rfc1123 res
  unfold httpRequestOutcome
  by_cases h : res.status < 200 ∨ res.status > 226
  · simp only [h, if_true]
    constructor
    · intro hc
      by_cases h429 : res.status = 429
      · simp only [h429, if_true] at hc
        cases hAwait : getAwaitTimeFromHeader rfc1123 res with
        | error e => rw [hAwait] at hc; exact absurd hc (by simp)
        | ok w => rw [hAwait] at hc; exact absurd hc (by simp)
      · simp only [h429, if_false] at hc
        exact absurd hc (by simp)
    · intro hband
      omega
  · simp only [h, if_false]
    constructor
    · intro _
      omega
    · intro _
      trivial

end SimpleSqsd
